import Mathlib

/-!
Verification of the Audiobook-Maker-AI core (src/App.tsx, src/services/geminiService.ts,
src/constants.ts) against its natural-language specification.

Times and durations are modelled as exact rationals; text is modelled as Lean strings
(lists of characters).  Character classes follow the JavaScript regular expressions used
by the source: the whitespace class of the regexes split on, the punctuation class
of the karaoke tokenizer, and the word class underlying the word boundaries written
in that tokenizer.
-/

/-- Whitespace characters matched by the JavaScript whitespace class used in
the splits of segmentTextForKaraoke. -/
def isSpaceChar (c : Char) : Bool :=
  c = ' ' || c = '\t' || c = '\n' || c = '\r' || c = '\x0b' || c = '\x0c'

/-- The punctuation characters of the tokenizer character class in segmentTextForKaraoke. -/
def isPunctChar (c : Char) : Bool :=
  c = '.' || c = ',' || c = '!' || c = '?' || c = ';' || c = ':'

/-- Word characters in the sense of the word-boundary assertions of the tokenizer
regular expression: ASCII letters, digits and underscore. -/
def isWordChar (c : Char) : Bool :=
  c.isAlpha || c.isDigit || c = '_'

/-- Models String.prototype.trim applied to a character list. -/
def trimChars (cs : List Char) : List Char :=
  ((cs.dropWhile isSpaceChar).reverse.dropWhile isSpaceChar).reverse

/-- Models text.split applied with the newline separator: every newline cuts,
and empty pieces are kept. -/
def splitOnNewline : List Char → List Char → List (List Char)
  | acc, [] => [acc.reverse]
  | acc, c :: rest =>
    if c = '\n' then acc.reverse :: splitOnNewline [] rest
    else splitOnNewline (c :: acc) rest

/-- Models the word list of segmentTextForKaraoke: the text split on whitespace runs,
empty pieces filtered out, i.e. the maximal runs of non-whitespace characters. -/
def wordsOfAux : List Char → List Char → List (List Char)
  | acc, [] => if acc.isEmpty then [] else [acc.reverse]
  | acc, c :: rest =>
    if isSpaceChar c then
      (if acc.isEmpty then [] else [acc.reverse]) ++ wordsOfAux [] rest
    else wordsOfAux (c :: acc) rest

/-- The whitespace-delimited words of a text (see wordsOfAux). -/
def wordsOf (cs : List Char) : List (List Char) :=
  wordsOfAux [] cs

/-- The four character classes relevant to the tokenizer regular expression of
segmentTextForKaraoke: whitespace, the punctuation class, word characters, and
everything else. -/
inductive CharClass where
  | space
  | punct
  | word
  | other
deriving DecidableEq

/-- The class of one character. -/
def classOf (c : Char) : CharClass :=
  if isSpaceChar c then CharClass.space
  else if isPunctChar c then CharClass.punct
  else if isWordChar c then CharClass.word
  else CharClass.other

/-- Groups a line into its maximal runs of same-class characters (helper, carries
the class and reversed characters of the current run). -/
def runsAux : CharClass → List Char → List Char → List (CharClass × List Char)
  | cl, acc, [] => [(cl, acc.reverse)]
  | cl, acc, c :: rest =>
    if classOf c = cl then runsAux cl (c :: acc) rest
    else (cl, acc.reverse) :: runsAux (classOf c) [c] rest

/-- The maximal same-class runs of a line, in order. -/
def charRuns : List Char → List (CharClass × List Char)
  | [] => []
  | c :: rest => runsAux (classOf c) [c] rest

/-- Whether the next run starts with a word character (used for the trailing
word-boundary assertion of the punctuation alternative of the tokenizer regex). -/
def nextRunIsWord : List (CharClass × List Char) → Bool
  | (CharClass.word, _) :: _ => true
  | _ => false

/-- Reassembles the runs of a line into the token list produced by the split of
segmentTextForKaraoke on its capturing tokenizer regex (whitespace alternative, or
the punctuation alternative guarded by word boundaries on both sides), with empty
pieces filtered out.  A whitespace run always separates; a punctuation run separates
exactly when the character before it and the character after it are word characters,
which is what the two word-boundary assertions around the punctuation class require;
all other runs accumulate into the current token. -/
def emitTokens : List Char → Bool → List (CharClass × List Char) → List (List Char)
  | acc, _, [] => if acc.isEmpty then [] else [acc]
  | acc, _, (CharClass.space, s) :: rest =>
    (if acc.isEmpty then [] else [acc]) ++ s :: emitTokens [] false rest
  | acc, prevWord, (CharClass.punct, s) :: rest =>
    if prevWord && nextRunIsWord rest then
      (if acc.isEmpty then [] else [acc]) ++ s :: emitTokens [] false rest
    else emitTokens (acc ++ s) false rest
  | acc, _, (CharClass.word, s) :: rest => emitTokens (acc ++ s) true rest
  | acc, _, (CharClass.other, s) :: rest => emitTokens (acc ++ s) false rest

/-- The token list of one line of segmentTextForKaraoke (wordsInLine in the source). -/
def splitLineTokens (line : List Char) : List (List Char) :=
  emitTokens [] false (charRuns line)

/-- Whether the trimmed token consists of one or more punctuation characters
(the isPunctuation test of segmentTextForKaraoke). -/
def isPunctuationToken (word : List Char) : Bool :=
  !(trimChars word).isEmpty && (trimChars word).all isPunctChar

/-- Whether the token contains a whitespace character (the whitespace test of
segmentTextForKaraoke, a partial-match test). -/
def containsWhitespace (word : List Char) : Bool :=
  word.any isSpaceChar

/-- The estimated duration of one token of segmentTextForKaraoke: 0.25 s for a
punctuation token, 0.08 s for a token containing whitespace, and otherwise the
word estimate anchored at the base average word duration. -/
def tokenDuration (baseAverageWordDuration : ℚ) (word : List Char) : ℚ :=
  if isPunctuationToken word then 0.25
  else if containsWhitespace word then 0.08
  else max 0.08 ((word.length : ℚ) * 0.09 + baseAverageWordDuration / 2)

/-- A word segment of the karaoke timing table, with times relative to its line. -/
structure WordSegment where
  word : List Char
  startTime : ℚ
  endTime : ℚ
deriving DecidableEq

/-- A line segment of the karaoke timing table, with times relative to the
audiobook beginning. -/
structure LineSegment where
  text : List Char
  words : List WordSegment
  duration : ℚ
  relativeStartTime : ℚ
  relativeEndTime : ℚ
deriving DecidableEq

/-- The inner token loop of segmentTextForKaraoke: accumulates the word time offset
and the line duration over the tokens of one line, returning the word segments
together with the final offset and duration. -/
def buildWordSegments (baseAverageWordDuration : ℚ) :
    ℚ → ℚ → List (List Char) → List WordSegment × ℚ × ℚ
  | wordTimeOffset, lineDuration, [] => ([], wordTimeOffset, lineDuration)
  | wordTimeOffset, lineDuration, word :: rest =>
    let d := tokenDuration baseAverageWordDuration word
    let next := buildWordSegments baseAverageWordDuration (wordTimeOffset + d) (lineDuration + d) rest
    ({ word := trimChars word, startTime := wordTimeOffset, endTime := wordTimeOffset + d } :: next.1,
      next.2)

/-- The outer line loop of segmentTextForKaraoke: maps the non-blank lines to line
segments while accumulating the overall time offset. -/
def segmentLinesFrom (baseAverageWordDuration : ℚ) : ℚ → List (List Char) → List LineSegment
  | _, [] => []
  | overallTimeOffset, line :: rest =>
    let built := buildWordSegments baseAverageWordDuration 0 0 (splitLineTokens line)
    let lineDuration := built.2.2
    { text := trimChars line, words := built.1, duration := lineDuration,
      relativeStartTime := overallTimeOffset,
      relativeEndTime := overallTimeOffset + lineDuration } ::
      segmentLinesFrom baseAverageWordDuration (overallTimeOffset + lineDuration) rest

/-- The non-blank lines of the text (lines in the source). -/
def karaokeLines (text : String) : List (List Char) :=
  (splitOnNewline [] text.data).filter fun l => !(trimChars l).isEmpty

/-- The base average word duration of segmentTextForKaraoke:
max of 0.1 and the total duration divided by the effective total word count. -/
def baseAverageWordDuration (text : String) (totalAudiobookDuration : ℚ) : ℚ :=
  max 0.1 (totalAudiobookDuration / max ((wordsOf text.data).length : ℚ) 1)

/-- The caption timing estimator segmentTextForKaraoke of src/App.tsx. -/
def segmentTextForKaraoke (text : String) (totalAudiobookDuration : ℚ) : List LineSegment :=
  if (karaokeLines text).isEmpty then []
  else segmentLinesFrom (baseAverageWordDuration text totalAudiobookDuration) 0 (karaokeLines text)

/-- The word scan of the karaoke overlay of drawMainVisualizer: first word of the
line whose relative window contains the time, index otherwise -1. -/
def findWordIndexFrom (timeInLine : ℚ) : ℕ → List WordSegment → Int
  | _, [] => -1
  | j, w :: rest =>
    if w.startTime ≤ timeInLine ∧ timeInLine < w.endTime then (j : Int)
    else findWordIndexFrom timeInLine (j + 1) rest

/-- The line scan of the karaoke overlay of drawMainVisualizer: first line whose
window contains the playback-relative time, paired with the word index inside it;
both indices are -1 when no window contains the time. -/
def findKaraokeIndicesFrom (currentTime : ℚ) : ℕ → List LineSegment → Int × Int
  | _, [] => (-1, -1)
  | i, l :: rest =>
    if l.relativeStartTime ≤ currentTime ∧ currentTime < l.relativeEndTime then
      ((i : Int), findWordIndexFrom (currentTime - l.relativeStartTime) 0 l.words)
    else findKaraokeIndicesFrom currentTime (i + 1) rest

/-- The current line and word lookup of the karaoke overlay of drawMainVisualizer. -/
def findKaraokeIndices (segments : List LineSegment) (currentTime : ℚ) : Int × Int :=
  findKaraokeIndicesFrom currentTime 0 segments

/-- One scheduled playback source: the source node created by playAudioBuffer,
remembered with its buffer duration and scheduled start. -/
structure PlaySource where
  duration : ℚ
  startAt : ℚ
deriving DecidableEq

/-- The playback scheduler state of src/App.tsx: the nextStartTimeRef cursor and the
sourceNodesRef set of active sources. -/
structure SchedulerState where
  nextStartTime : ℚ
  sourceNodes : List PlaySource
deriving DecidableEq

/-- The initial scheduler state: both refs start at zero and empty. -/
def initialSchedulerState : SchedulerState :=
  { nextStartTime := 0, sourceNodes := [] }

/-- The playAudioBuffer scheduling step of src/App.tsx: the cursor is first clamped
up to the current clock time, the source starts exactly at the clamped cursor, the
cursor advances by the buffer duration, and the source is registered.  Returns the
new state and the scheduled start time. -/
def playAudioBuffer (s : SchedulerState) (clockNow bufferDuration : ℚ) :
    SchedulerState × ℚ :=
  let startAt := max s.nextStartTime clockNow
  ({ nextStartTime := startAt + bufferDuration,
     sourceNodes := { duration := bufferDuration, startAt := startAt } :: s.sourceNodes },
   startAt)

/-- The stopAllAudio handler of src/App.tsx: every active source is stopped and
disconnected, the source set is cleared and the cursor reset to zero. -/
def stopAllAudio (_s : SchedulerState) : SchedulerState :=
  { nextStartTime := 0, sourceNodes := [] }

/-- Scheduled start times of a sequence of chunk submissions, each given as the
clock time at submission paired with the chunk duration. -/
def scheduleChunks : SchedulerState → List (ℚ × ℚ) → List ℚ
  | _, [] => []
  | s, chunk :: rest =>
    let result := playAudioBuffer s chunk.1 chunk.2
    result.2 :: scheduleChunks result.1 rest

/-- The backoff delay in milliseconds before the retry after the failed attempt
with the given zero-based index (generateTextToSpeech of geminiService.ts). -/
def backoffDelayMs (attempts : ℕ) : ℕ :=
  2 ^ attempts * 1000

/-- The retry loop of generateTextToSpeech: attempt the synthesis; on success return
the result; on failure, if retries remain, record the backoff delay and try again
with the next attempt index, and otherwise propagate the error.  The outcome of
attempt number n is supplied by the outcomes function; returns the final outcome
together with the list of backoff delays waited, in order. -/
def ttsRetryLoop {α ε : Type} (outcomes : ℕ → Except ε α) :
    ℕ → ℕ → Except ε α × List ℕ
  | attempts, 0 =>
    (match outcomes attempts with
     | Except.ok v => Except.ok v
     | Except.error e => Except.error e, [])
  | attempts, retriesLeft + 1 =>
    match outcomes attempts with
    | Except.ok v => (Except.ok v, [])
    | Except.error _ =>
      let next := ttsRetryLoop outcomes (attempts + 1) retriesLeft
      (next.1, backoffDelayMs attempts :: next.2)

/-- The retry-wrapped synthesis client generateTextToSpeech of geminiService.ts,
abstracted over the per-attempt outcomes; the source calls it with maxRetries = 2. -/
def generateTextToSpeech {α ε : Type} (outcomes : ℕ → Except ε α) (maxRetries : ℕ) :
    Except ε α × List ℕ :=
  ttsRetryLoop outcomes 0 maxRetries

/-- A video codec preset of constants.ts. -/
structure VideoCodec where
  name : String
  value : String
  mimeType : String
  extension : String
  codecsString : String
deriving DecidableEq

/-- The VIDEO_CODECS table of constants.ts. -/
def VIDEO_CODECS : List VideoCodec :=
  [{ name := "WebM (VP8/VP9)", value := "webm", mimeType := "video/webm",
     extension := "webm", codecsString := "vp8,opus" },
   { name := "MP4 (H.264)", value := "mp4_h264", mimeType := "video/mp4",
     extension := "mp4", codecsString := "avc1.42001E,mp4a.40.2" }]

/-- The WebM codec preset (the first entry of VIDEO_CODECS). -/
def webmVideoCodec : VideoCodec :=
  { name := "WebM (VP8/VP9)", value := "webm", mimeType := "video/webm",
    extension := "webm", codecsString := "vp8,opus" }

/-- The blob assembled when a recording stops: its bytes and its type tag. -/
structure RecordedBlob where
  data : List ℕ
  type : String
deriving DecidableEq

/-- The Hungarian empty-recording error message of the onstop handler. -/
def EMPTY_RECORDING_MESSAGE : String :=
  "Nincs rögzített videó adat. A felvétel sikertelen volt, vagy túl rövid."

/-- The ondataavailable handler of startRecordingVideo: a chunk is appended to the
accumulated list exactly when its size is positive. -/
def onDataAvailable (recordedChunks : List (List ℕ)) (data : List ℕ) : List (List ℕ) :=
  if 0 < data.length then recordedChunks ++ [data] else recordedChunks

/-- The onstop handler of startRecordingVideo: with no accumulated chunks an explicit
error is reported and no artifact is produced; otherwise all chunks are concatenated
in arrival order into one blob tagged with the selected codec container MIME type. -/
def onRecorderStop (selectedCodec : VideoCodec) (recordedChunks : List (List ℕ)) :
    Except String RecordedBlob :=
  if recordedChunks.length = 0 then Except.error EMPTY_RECORDING_MESSAGE
  else Except.ok { data := recordedChunks.flatten, type := selectedCodec.mimeType }

/-- Three data events of sizes 10, 20 and 30 bytes fed through the ondataavailable
handler starting from the empty accumulation list. -/
def demoRecordingChunks : List (List ℕ) :=
  onDataAvailable
    (onDataAvailable (onDataAvailable [] (List.replicate 10 0)) (List.replicate 20 0))
    (List.replicate 30 0)

/-- The fade constant FADE_DURATION_SECONDS of src/App.tsx. -/
def FADE_DURATION_SECONDS : ℚ := 1.0

/-- The audiobookFadeStateRef record of src/App.tsx during a scene transition;
scene images are identified by their index in the scene image list. -/
structure FadeState where
  startTime : ℚ
  duration : ℚ
  oldImageUrl : ℕ
  newImageUrl : ℕ
deriving DecidableEq

/-- The scene crossfade state of src/App.tsx: the optional fade record, the current
scene index, and the timestamp of the last scene change. -/
structure CrossfadeState where
  fade : Option FadeState
  sceneIndex : ℕ
  lastSceneChangeTimestamp : ℚ
deriving DecidableEq

/-- The crossfade state set by playAudioBuffer when audiobook playback starts:
no fade, scene index zero (the timestamp is modelled from the playback clock origin). -/
def initialCrossfadeState : CrossfadeState :=
  { fade := none, sceneIndex := 0, lastSceneChangeTimestamp := 0 }

/-- One frame of the scene-crossfade logic of drawMainVisualizer while the audiobook
is playing: when at least one scene image exists, a new fade is triggered once the
elapsed time since the last change reaches the duration-derived cadence, provided the
total duration is positive, no fade is active and more than one image exists; then,
in the drawing phase, an active fade whose clamped progress has reached one is
cleared.  With no scene images the branch is skipped entirely. -/
def crossfadeStep (imageCount : ℕ) (totalAudiobookDuration currentTime : ℚ)
    (s : CrossfadeState) : CrossfadeState :=
  if 0 < imageCount then
    let s1 :=
      if 0 < totalAudiobookDuration ∧ s.fade = none ∧ 1 < imageCount ∧
          totalAudiobookDuration / (imageCount : ℚ) ≤ currentTime - s.lastSceneChangeTimestamp then
        let newIndex := (s.sceneIndex + 1) % imageCount
        { fade := some { startTime := currentTime, duration := FADE_DURATION_SECONDS,
                         oldImageUrl := s.sceneIndex, newImageUrl := newIndex },
          sceneIndex := newIndex,
          lastSceneChangeTimestamp := currentTime }
      else s
    match s1.fade with
    | some fadeState =>
      if 1 ≤ min 1 ((currentTime - fadeState.startTime) / fadeState.duration) then
        { s1 with fade := none }
      else s1
    | none => s1
  else s

/-- Helper: the retry loop never waits more backoff delays than it has retries. -/
theorem ttsRetryLoop_delays_length_le {α ε : Type} (outcomes : ℕ → Except ε α) :
    ∀ (retriesLeft attempts : ℕ),
      (ttsRetryLoop outcomes attempts retriesLeft).2.length ≤ retriesLeft := by
  intro retriesLeft
  induction retriesLeft with
  | zero =>
    intro attempts
    cases h : outcomes attempts <;> simp [ttsRetryLoop, h]
  | succ n ih =>
    intro attempts
    cases h : outcomes attempts with
    | ok v => simp [ttsRetryLoop, h]
    | error e =>
      simp only [ttsRetryLoop, h, List.length_cons]
      exact Nat.succ_le_succ (ih (attempts + 1))

/-- C7: with the retry budget maxRetries = 2 of the source, generateTextToSpeech makes
at most 3 attempts; a success on the first, second or third attempt delivers the
decoded result to the caller after backoff delays of [], [1000 ms] or
[1000 ms, 2000 ms] respectively, and three failures propagate the last attempt's
error after the same two delays. -/
theorem generateTextToSpeech_retry_policy {α ε : Type} (outcomes : ℕ → Except ε α) :
    (generateTextToSpeech outcomes 2).2.length + 1 ≤ 3 ∧
    (∀ v, outcomes 0 = Except.ok v →
      generateTextToSpeech outcomes 2 = (Except.ok v, [])) ∧
    (∀ e0 v, outcomes 0 = Except.error e0 → outcomes 1 = Except.ok v →
      generateTextToSpeech outcomes 2 = (Except.ok v, [1000])) ∧
    (∀ e0 e1 v, outcomes 0 = Except.error e0 → outcomes 1 = Except.error e1 →
      outcomes 2 = Except.ok v →
      generateTextToSpeech outcomes 2 = (Except.ok v, [1000, 2000])) ∧
    (∀ e0 e1 e2, outcomes 0 = Except.error e0 → outcomes 1 = Except.error e1 →
      outcomes 2 = Except.error e2 →
      generateTextToSpeech outcomes 2 = (Except.error e2, [1000, 2000])) := by
  refine ⟨?_, ?_, ?_, ?_, ?_⟩
  · exact Nat.succ_le_succ (ttsRetryLoop_delays_length_le outcomes 2 0)
  · intro v h0
    simp [generateTextToSpeech, ttsRetryLoop, h0]
  · intro e0 v h0 h1
    simp [generateTextToSpeech, ttsRetryLoop, h0, h1, backoffDelayMs]
  · intro e0 e1 v h0 h1 h2
    simp [generateTextToSpeech, ttsRetryLoop, h0, h1, h2, backoffDelayMs]
  · intro e0 e1 e2 h0 h1 h2
    simp [generateTextToSpeech, ttsRetryLoop, h0, h1, h2, backoffDelayMs]

/-- C7 witness: synthesis failing twice then succeeding delivers the success after
the two backoff delays of one and two seconds. -/
theorem generateTextToSpeech_retry_policy_witness :
    generateTextToSpeech
        (fun n => if n < 2 then (Except.error n : Except ℕ ℕ) else Except.ok 7) 2 =
      (Except.ok 7, [1000, 2000]) :=
  (generateTextToSpeech_retry_policy
    (fun n => if n < 2 then (Except.error n : Except ℕ ℕ) else Except.ok 7)).2.2.2.1
    0 1 7 rfl rfl rfl

/-- C8: stopping with zero accumulated chunks reports the explicit empty-recording
error and produces no artifact; stopping with a non-empty accumulation yields one
blob concatenating all chunks in arrival order, tagged with the selected codec
container MIME type, whose size is the sum of the chunk sizes. -/
theorem onRecorderStop_spec (selectedCodec : VideoCodec) (recordedChunks : List (List ℕ))
    (h : recordedChunks ≠ []) :
    onRecorderStop selectedCodec [] = Except.error EMPTY_RECORDING_MESSAGE ∧
    onRecorderStop selectedCodec recordedChunks =
      Except.ok { data := recordedChunks.flatten, type := selectedCodec.mimeType } ∧
    recordedChunks.flatten.length = (recordedChunks.map List.length).sum := by
  refine ⟨rfl, ?_, ?_⟩
  · rw [onRecorderStop, if_neg (by simpa using h)]
  · simp [List.length_flatten]

/-- C8 witness: three data chunks of sizes 10, 20 and 30 bytes produce one 60-byte
blob tagged with the WebM codec MIME type. -/
theorem onRecorderStop_spec_witness :
    onRecorderStop webmVideoCodec demoRecordingChunks =
      Except.ok { data := demoRecordingChunks.flatten, type := webmVideoCodec.mimeType } ∧
    demoRecordingChunks.flatten.length = 60 :=
  ⟨(onRecorderStop_spec webmVideoCodec demoRecordingChunks (by decide)).2.1, by decide⟩

/-- C6: stopAllAudio leaves the active source set empty and the cursor at zero, so
for any pre-stop cursor the next playAudioBuffer schedules its chunk at the current
clock time. -/
theorem stopAllAudio_resets (s : SchedulerState) (clockNow bufferDuration : ℚ)
    (h : 0 ≤ clockNow) :
    (stopAllAudio s).sourceNodes = [] ∧
    (stopAllAudio s).nextStartTime = 0 ∧
    (playAudioBuffer (stopAllAudio s) clockNow bufferDuration).2 = clockNow := by
  refine ⟨rfl, rfl, ?_⟩
  simpa [playAudioBuffer, stopAllAudio] using max_eq_right h

/-- C6 witness: after stopping a scheduler whose cursor was at 100 with one active
source, a play at clock time 5 starts at 5. -/
theorem stopAllAudio_resets_witness :
    (stopAllAudio
      { nextStartTime := 100, sourceNodes := [{ duration := 2, startAt := 50 }] }).sourceNodes = [] ∧
    (stopAllAudio
      { nextStartTime := 100, sourceNodes := [{ duration := 2, startAt := 50 }] }).nextStartTime = 0 ∧
    (playAudioBuffer
      (stopAllAudio { nextStartTime := 100, sourceNodes := [{ duration := 2, startAt := 50 }] })
      5 3).2 = 5 :=
  stopAllAudio_resets
    { nextStartTime := 100, sourceNodes := [{ duration := 2, startAt := 50 }] } 5 3 (by norm_num)

/-- Helper: with at most one scene image a crossfade frame never creates a fade. -/
theorem crossfadeStep_fade_none (imageCount : ℕ) (totalAudiobookDuration currentTime : ℚ)
    (s : CrossfadeState) (hcount : imageCount ≤ 1) (hs : s.fade = none) :
    (crossfadeStep imageCount totalAudiobookDuration currentTime s).fade = none := by
  have hcond : ¬(0 < totalAudiobookDuration ∧ s.fade = none ∧ 1 < imageCount ∧
      totalAudiobookDuration / (imageCount : ℚ) ≤ currentTime - s.lastSceneChangeTimestamp) := by
    rintro ⟨-, -, h2, -⟩
    omega
  rw [crossfadeStep]
  split
  · simp only [if_neg hcond, hs]
  · exact hs

/-- C9: with at most one scene image the crossfade state machine never enters the
fading state: starting from the playback-start state, the fade field stays absent
across every render frame, for any narration duration. -/
theorem crossfade_single_image_never_fades (imageCount : ℕ) (totalAudiobookDuration : ℚ)
    (frameTimes : List ℚ) (h : imageCount ≤ 1) :
    (frameTimes.foldl (fun s t => crossfadeStep imageCount totalAudiobookDuration t s)
      initialCrossfadeState).fade = none := by
  have key : ∀ (ts : List ℚ) (s : CrossfadeState), s.fade = none →
      (ts.foldl (fun s t => crossfadeStep imageCount totalAudiobookDuration t s) s).fade = none := by
    intro ts
    induction ts with
    | nil => intro s hs; simpa using hs
    | cons t rest ih =>
      intro s hs
      exact ih _ (crossfadeStep_fade_none imageCount totalAudiobookDuration t s h hs)
  exact key frameTimes initialCrossfadeState rfl

/-- C9 witness: one scene image, narration duration 7, three frames at times 0, 3
and 9: the fade state stays absent. -/
theorem crossfade_single_image_never_fades_witness :
    (([0, 3, 9] : List ℚ).foldl (fun s t => crossfadeStep 1 7 t s)
      initialCrossfadeState).fade = none :=
  crossfade_single_image_never_fades 1 7 [0, 3, 9] (by decide)

/-- C10: when every line of the text is blank, the estimator returns the empty list
of line segments for every total duration, and the karaoke lookup then yields no
line and no word at any time. -/
theorem segmentTextForKaraoke_blank (text : String) (D t : ℚ)
    (h : ∀ l ∈ splitOnNewline [] text.data, (trimChars l).isEmpty = true) :
    segmentTextForKaraoke text D = [] ∧
    findKaraokeIndices (segmentTextForKaraoke text D) t = (-1, -1) := by
  have hlines : karaokeLines text = [] := by
    rw [karaokeLines]
    apply List.filter_eq_nil_iff.mpr
    intro l hl
    simp [h l hl]
  have hmain : segmentTextForKaraoke text D = [] := by
    simp [segmentTextForKaraoke, hlines]
  exact ⟨hmain, by rw [hmain]; rfl⟩

/-- C10 witness: a whitespace-only text with a newline yields no segments and the
lookup at time 0 reports no line and no word. -/
theorem segmentTextForKaraoke_blank_witness :
    segmentTextForKaraoke "  \n " 5 = [] ∧
    findKaraokeIndices (segmentTextForKaraoke "  \n " 5) 0 = (-1, -1) :=
  segmentTextForKaraoke_blank "  \n " 5 0 (by decide)

/-- C4: evaluation of the tokenizer at the failing input.  The line Hello world.
is split into the tokens Hello, one space, and world. with the trailing full stop
still attached to the word, the trailing token does not satisfy the punctuation
test, and its duration is computed by the word branch (here with base average word
duration 1), not by the fixed 0.25 s punctuation branch. -/
theorem karaoke_tokenization_divergence :
    splitLineTokens ("Hello world.".data) =
      ["Hello".data, " ".data, "world.".data] ∧
    isPunctuationToken ("world.".data) = false ∧
    tokenDuration 1 ("world.".data) = 1.04 := by
  with_unfolding_all decide

/-- C5 counterexample: the text Hello world. Bye now. contains no newline, so the
estimator yields one line, not two, and the line durations sum to the heuristic
total, not to the supplied 4.0 s. -/
theorem karaoke_scenario_counterexample :
    (segmentTextForKaraoke "Hello world. Bye now." 4).length ≠ 2 ∧
    ((segmentTextForKaraoke "Hello world. Bye now." 4).map LineSegment.duration).sum ≠ 4 := by
  with_unfolding_all decide

/-- C5 amended: the text Hello world. Bye now. with total duration 4.0 s produces
exactly one line, its duration sums to 3.86 s, and the lookup at playback-relative
time 0 returns line index 0 and word index 0. -/
theorem karaoke_scenario_amended :
    (segmentTextForKaraoke "Hello world. Bye now." 4).length = 1 ∧
    ((segmentTextForKaraoke "Hello world. Bye now." 4).map LineSegment.duration).sum = 3.86 ∧
    findKaraokeIndices (segmentTextForKaraoke "Hello world. Bye now." 4) 0 = (0, 0) := by
  with_unfolding_all decide

/-- Helper: the line loop returns no segments exactly for the empty line list. -/
theorem segmentLinesFrom_eq_nil_iff (base off : ℚ) (lines : List (List Char)) :
    segmentLinesFrom base off lines = [] ↔ lines = [] := by
  cases lines <;> simp [segmentLinesFrom]

/-- Helper: the line loop produces one segment per line. -/
theorem segmentLinesFrom_length (base : ℚ) :
    ∀ (lines : List (List Char)) (off : ℚ),
      (segmentLinesFrom base off lines).length = lines.length := by
  intro lines
  induction lines with
  | nil => intro off; rfl
  | cons l rest ih => intro off; simp [segmentLinesFrom, ih]

/-- Helper: the first segment produced by the line loop starts at the running offset. -/
theorem segmentLinesFrom_get_zero (base : ℚ) (lines : List (List Char)) (off : ℚ)
    (h0 : 0 < (segmentLinesFrom base off lines).length) :
    ((segmentLinesFrom base off lines).get ⟨0, h0⟩).relativeStartTime = off := by
  cases lines with
  | nil => simp [segmentLinesFrom] at h0
  | cons l rest => rfl

/-- Helper: in the line loop output, each segment starts where the previous one ends. -/
theorem segmentLinesFrom_adjacent (base : ℚ) :
    ∀ (lines : List (List Char)) (off : ℚ) (i : ℕ)
      (hi : i + 1 < (segmentLinesFrom base off lines).length),
      ((segmentLinesFrom base off lines).get ⟨i + 1, hi⟩).relativeStartTime =
        ((segmentLinesFrom base off lines).get ⟨i, Nat.lt_of_succ_lt hi⟩).relativeEndTime := by
  intro lines
  induction lines with
  | nil => intro off i hi; simp [segmentLinesFrom] at hi
  | cons l rest ih =>
    intro off i hi
    cases i with
    | zero =>
      have h0 : 0 < (segmentLinesFrom base
          (off + (buildWordSegments base 0 0 (splitLineTokens l)).2.2) rest).length := by
        have := hi
        simp only [segmentLinesFrom, List.length_cons] at this
        omega
      simpa [segmentLinesFrom] using
        segmentLinesFrom_get_zero base rest
          (off + (buildWordSegments base 0 0 (splitLineTokens l)).2.2) h0
    | succ j =>
      have hj : j + 1 < (segmentLinesFrom base
          (off + (buildWordSegments base 0 0 (splitLineTokens l)).2.2) rest).length := by
        have := hi
        simp only [segmentLinesFrom, List.length_cons] at this
        omega
      simpa [segmentLinesFrom] using
        ih (off + (buildWordSegments base 0 0 (splitLineTokens l)).2.2) j hj

/-- Helper: the last segment of the line loop ends at the running offset plus the
sum of all produced durations. -/
theorem segmentLinesFrom_getLast (base : ℚ) :
    ∀ (lines : List (List Char)) (off : ℚ) (h : segmentLinesFrom base off lines ≠ []),
      ((segmentLinesFrom base off lines).getLast h).relativeEndTime =
        off + ((segmentLinesFrom base off lines).map LineSegment.duration).sum := by
  intro lines
  induction lines with
  | nil => intro off h; simp [segmentLinesFrom] at h
  | cons l rest ih =>
    intro off h
    by_cases hr : rest = []
    · subst hr
      simp [segmentLinesFrom]
    · have htail : segmentLinesFrom base
          (off + (buildWordSegments base 0 0 (splitLineTokens l)).2.2) rest ≠ [] := by
        simp [segmentLinesFrom_eq_nil_iff, hr]
      have step := ih (off + (buildWordSegments base 0 0 (splitLineTokens l)).2.2) htail
      simp only [segmentLinesFrom, List.getLast_cons htail, List.map_cons, List.sum_cons]
      rw [step]
      ring

/-- C3: for every input text and total duration, the estimator output is a
contiguous partition of its timeline: the relativeStartTime of line i+1 equals the
relativeEndTime of line i for all adjacent lines, and the first line starts at 0. -/
theorem estimate_partition (text : String) (D : ℚ) :
    (∀ (i : ℕ) (hi : i + 1 < (segmentTextForKaraoke text D).length),
      ((segmentTextForKaraoke text D).get ⟨i + 1, hi⟩).relativeStartTime =
        ((segmentTextForKaraoke text D).get ⟨i, Nat.lt_of_succ_lt hi⟩).relativeEndTime) ∧
    (∀ (h0 : 0 < (segmentTextForKaraoke text D).length),
      ((segmentTextForKaraoke text D).get ⟨0, h0⟩).relativeStartTime = 0) := by
  constructor
  · intro i hi
    by_cases hl : (karaokeLines text).isEmpty = true
    · revert hi
      simp [segmentTextForKaraoke, hl]
    · have e : segmentTextForKaraoke text D =
          segmentLinesFrom (baseAverageWordDuration text D) 0 (karaokeLines text) := by
        simp [segmentTextForKaraoke, hl]
      revert hi
      rw [e]
      intro hi
      exact segmentLinesFrom_adjacent (baseAverageWordDuration text D) (karaokeLines text) 0 i hi
  · intro h0
    by_cases hl : (karaokeLines text).isEmpty = true
    · revert h0
      simp [segmentTextForKaraoke, hl]
    · have e : segmentTextForKaraoke text D =
          segmentLinesFrom (baseAverageWordDuration text D) 0 (karaokeLines text) := by
        simp [segmentTextForKaraoke, hl]
      revert h0
      rw [e]
      intro h0
      exact segmentLinesFrom_get_zero (baseAverageWordDuration text D) (karaokeLines text) 0 h0

/-- C3 witness: for a two-line text the second line starts exactly where the first
ends, and the first line starts at 0. -/
theorem estimate_partition_witness :
    ((segmentTextForKaraoke "ab\ncd" 2).get
        ⟨1, by with_unfolding_all decide⟩).relativeStartTime =
      ((segmentTextForKaraoke "ab\ncd" 2).get
        ⟨0, by with_unfolding_all decide⟩).relativeEndTime ∧
    ((segmentTextForKaraoke "ab\ncd" 2).get
        ⟨0, by with_unfolding_all decide⟩).relativeStartTime = 0 :=
  ⟨(estimate_partition "ab\ncd" 2).1 0 (by with_unfolding_all decide),
   (estimate_partition "ab\ncd" 2).2 (by with_unfolding_all decide)⟩

/-- C2 counterexample: for the text a with total duration 1 the single line has
duration 0.59, so the durations do not sum to the supplied total and the last line
does not end at it. -/
theorem estimate_durations_sum_counterexample :
    ((segmentTextForKaraoke "a" 1).map LineSegment.duration).sum ≠ 1 ∧
    ((segmentTextForKaraoke "a" 1).getLast
      (by with_unfolding_all decide)).relativeEndTime ≠ 1 := by
  with_unfolding_all decide

/-- C2 amended: the estimator line durations sum to the relativeEndTime of the last
line, the heuristic estimated total of the per-token durations, which in general
differs from the supplied total duration. -/
theorem estimate_durations_sum (text : String) (D : ℚ)
    (h : segmentTextForKaraoke text D ≠ []) :
    ((segmentTextForKaraoke text D).map LineSegment.duration).sum =
      ((segmentTextForKaraoke text D).getLast h).relativeEndTime := by
  have hl : ¬((karaokeLines text).isEmpty = true) := by
    intro hc
    apply h
    simp [segmentTextForKaraoke, hc]
  have e : segmentTextForKaraoke text D =
      segmentLinesFrom (baseAverageWordDuration text D) 0 (karaokeLines text) := by
    simp [segmentTextForKaraoke, hl]
  revert h
  rw [e]
  intro h
  rw [segmentLinesFrom_getLast (baseAverageWordDuration text D) (karaokeLines text) 0 h]
  ring

/-- C2 witness: for the text a with duration 1, the duration sum equals the last
line's relativeEndTime. -/
theorem estimate_durations_sum_witness :
    ((segmentTextForKaraoke "a" 1).map LineSegment.duration).sum =
      ((segmentTextForKaraoke "a" 1).getLast (by with_unfolding_all decide)).relativeEndTime :=
  estimate_durations_sum "a" 1 (by with_unfolding_all decide)

/-- Helper: one scheduled start per submitted chunk. -/
theorem scheduleChunks_length :
    ∀ (subs : List (ℚ × ℚ)) (s : SchedulerState),
      (scheduleChunks s subs).length = subs.length := by
  intro subs
  induction subs with
  | nil => intro s; rfl
  | cons c rest ih => intro s; simp [scheduleChunks, ih]

/-- Helper: each scheduled start is the maximum of the previous chunk's end time and
the clock time at submission (the cursor clamp of playAudioBuffer). -/
theorem scheduleChunks_get_succ :
    ∀ (subs : List (ℚ × ℚ)) (s : SchedulerState) (i : ℕ) (hi : i + 1 < subs.length),
      (scheduleChunks s subs).get ⟨i + 1, by rw [scheduleChunks_length]; exact hi⟩ =
        max ((scheduleChunks s subs).get
              ⟨i, by rw [scheduleChunks_length]; exact Nat.lt_of_succ_lt hi⟩ +
            (subs.get ⟨i, Nat.lt_of_succ_lt hi⟩).2)
          ((subs.get ⟨i + 1, hi⟩).1) := by
  intro subs
  induction subs with
  | nil => intro s i hi; simp at hi
  | cons c rest ih =>
    intro s i hi
    cases i with
    | zero =>
      cases rest with
      | nil => simp at hi
      | cons c2 rest2 => simp [scheduleChunks, playAudioBuffer]
    | succ j =>
      have hj : j + 1 < rest.length := by simpa using hi
      simpa [scheduleChunks] using ih (playAudioBuffer s c.1 c.2).1 j hj

/-- C1 counterexample: two chunks of duration 1 submitted at clock times 0 and 10
from the initial scheduler state start at 0 and 10 respectively, so the second
chunk does not start at the first chunk's end time 1: a chunk arriving after the
cursor has passed creates a gap. -/
theorem playAudioBuffer_gapless_counterexample :
    (scheduleChunks initialSchedulerState [(0, 1), (10, 1)]).get
        ⟨1, by with_unfolding_all decide⟩ ≠
      (scheduleChunks initialSchedulerState [(0, 1), (10, 1)]).get
        ⟨0, by with_unfolding_all decide⟩ + 1 := by
  with_unfolding_all decide

/-- C1 amended: playAudioBuffer starts each chunk at the maximum of the cursor and
the clock time and advances the cursor by the chunk duration; consequently, within
one session, chunk i+1 starts exactly at chunk i's start plus chunk i's duration
provided it is submitted no later than that end time (a chunk submitted after the
cursor has passed starts at its submission clock time instead). -/
theorem playAudioBuffer_gapless (s : SchedulerState) (clockNow bufferDuration : ℚ)
    (subs : List (ℚ × ℚ)) (i : ℕ) (hi : i + 1 < subs.length)
    (timely : (subs.get ⟨i + 1, hi⟩).1 ≤
      (scheduleChunks s subs).get
          ⟨i, by rw [scheduleChunks_length]; exact Nat.lt_of_succ_lt hi⟩ +
        (subs.get ⟨i, Nat.lt_of_succ_lt hi⟩).2) :
    (playAudioBuffer s clockNow bufferDuration).2 = max s.nextStartTime clockNow ∧
    (playAudioBuffer s clockNow bufferDuration).1.nextStartTime =
      max s.nextStartTime clockNow + bufferDuration ∧
    (scheduleChunks s subs).get ⟨i + 1, by rw [scheduleChunks_length]; exact hi⟩ =
      (scheduleChunks s subs).get
          ⟨i, by rw [scheduleChunks_length]; exact Nat.lt_of_succ_lt hi⟩ +
        (subs.get ⟨i, Nat.lt_of_succ_lt hi⟩).2 := by
  refine ⟨rfl, rfl, ?_⟩
  exact (scheduleChunks_get_succ subs s i hi).trans (max_eq_left timely)

/-- C1 witness: two chunks submitted at clock times 0 and 1 with durations 1 and 2
from the initial state are gapless: the second starts at 1, the end of the first. -/
theorem playAudioBuffer_gapless_witness :
    (playAudioBuffer initialSchedulerState 0 1).2 = max initialSchedulerState.nextStartTime 0 ∧
    (playAudioBuffer initialSchedulerState 0 1).1.nextStartTime =
      max initialSchedulerState.nextStartTime 0 + 1 ∧
    (scheduleChunks initialSchedulerState [(0, 1), (1, 2)]).get
        ⟨1, by with_unfolding_all decide⟩ =
      (scheduleChunks initialSchedulerState [(0, 1), (1, 2)]).get
          ⟨0, by with_unfolding_all decide⟩ +
        (([((0 : ℚ), (1 : ℚ)), (1, 2)]).get ⟨0, by decide⟩).2 :=
  playAudioBuffer_gapless initialSchedulerState 0 1 [(0, 1), (1, 2)] 0 (by decide)
    (by with_unfolding_all decide)
